import Mathlib

/-!
Verification development for the cafs repository: a shallow embedding of the
tiered cache store (src/unnamed/part_002, `CacheStore`), the in-memory backend
(src/lib/backends/MemoryStore.js) and the dynamic capability proxy, together
with theorems settling the claims about them.

Conventions of the embedding:
  * JS objects used as string-keyed dictionaries become association lists
    (`KV`), with at most one entry per key when built through `kvInsert`.
  * Byte buffers become `List Nat`.
  * JS numbers that can become `undefined`/`NaN` through the lru-cache
    bookkeeping become `Option Nat` / `Option Int`, where `none` plays the
    role of `undefined`/`NaN`: arithmetic absorbs `none` and every ordered
    comparison against `none` is `false`, exactly as in JS.
  * The lru-cache dependency (v4, as selected by the option set
    `max`/`length`/`noDisposeOnSet`/`dispose` the source passes) is embedded
    with its `get`/`set`/`del`/trim semantics, since the CacheStore budget
    behaviour is defined through it.
  * Promise-based control flow is sequentialized; a rejected promise becomes
    `Except.error`.
-/

namespace Cafs

/-! ### Association-list dictionaries (JS objects used as maps) -/

/-- A JS object used as a dictionary: association list from keys to values. -/
abbrev KV (κ α : Type) : Type := List (κ × α)

deriving instance DecidableEq for Except

/-- Lookup in a dictionary (JS property read: `obj[k]`, `undefined` = `none`). -/
def kvLookup [DecidableEq κ] : KV κ α → κ → Option α
  | [], _ => none
  | (k, v) :: m, q => if k = q then some v else kvLookup m q

/-- Remove a key from a dictionary (JS `delete obj[k]`). -/
def kvErase [DecidableEq κ] : KV κ α → κ → KV κ α
  | [], _ => []
  | (k, v) :: m, q => if k = q then kvErase m q else (k, v) :: kvErase m q

/-- Write a key in a dictionary (JS `obj[k] = v`, overwriting). -/
def kvInsert [DecidableEq κ] (m : KV κ α) (q : κ) (v : α) : KV κ α :=
  (q, v) :: kvErase m q

/-! ### JS number / truthiness helpers -/

/-- JS `a > b` where `a` may be `undefined`/`NaN` (`none`): then the
comparison is `false`. -/
def jsGtI (a : Option Int) (b : Nat) : Bool :=
  match a with
  | none => false
  | some v => decide ((b : Int) < v)

/-- JS `a > b` for a possibly-`undefined` natural. -/
def jsGtN (a : Option Nat) (b : Nat) : Bool :=
  match a with
  | none => false
  | some v => decide (b < v)

/-- JS `a + b` where either side may be `undefined`/`NaN`: the result is
`NaN` (`none`). -/
def jsAddI (a : Option Int) (b : Option Nat) : Option Int :=
  match a, b with
  | some x, some y => some (x + (y : Int))
  | _, _ => none

/-- JS `a - b` with `undefined`/`NaN` absorption. -/
def jsSubI (a : Option Int) (b : Option Nat) : Option Int :=
  match a, b with
  | some x, some y => some (x - (y : Int))
  | _, _ => none

/-- JS `a + (b - c)` with `undefined`/`NaN` absorption (the lru-cache
`LENGTH += len - old` update). -/
def jsAddSubI (a : Option Int) (b c : Option Nat) : Option Int :=
  match a, b, c with
  | some x, some y, some z => some (x + (y : Int) - (z : Int))
  | _, _, _ => none

/-- JS truthiness of a possibly-`undefined` string (`undefined` and the empty
string are falsy). -/
def jsTruthyStr (o : Option String) : Bool :=
  match o with
  | none => false
  | some s => decide (s ≠ "")

/-- JS truthiness of a possibly-`undefined` number (`undefined` and `0` are
falsy). -/
def jsTruthyNum (o : Option Nat) : Bool :=
  match o with
  | none => false
  | some n => decide (n ≠ 0)

/-! ### The store contract (§4.2)

A backend is an arbitrary state type `σ` together with the five capability
functions.  `ρ` is the value type returned by the backend's delete-key
capability (`unlink`). -/

/-- The capability set every backend must satisfy (write-by-key, read-by-key,
rename-key, existence-check, delete-key), over a backend state `σ`. -/
structure Store (σ ρ : Type) where
  ensure : σ → String → List Nat → σ
  streamFn : σ → String → Except String (List Nat)
  move : σ → String → String → Except String σ
  existsKey : σ → String → Bool
  unlink : σ → String → σ × ρ

/-! ### The in-memory backend (src/lib/backends/MemoryStore.js) -/

/-- State of a `MemoryStore`: `this.data`, a plain key-to-buffer object. -/
abbrev MemState : Type := KV String (List Nat)

/-- `MemoryStore.prototype.ensure`: buffer the stream and store it under the
key, overwriting. -/
def memEnsure (st : MemState) (k : String) (b : List Nat) : MemState :=
  kvInsert st k b

/-- `MemoryStore.prototype.stream`: read the buffer for the key, erroring when
the key is absent. -/
def memStreamFn (st : MemState) (k : String) : Except String (List Nat) :=
  match kvLookup st k with
  | some b => Except.ok b
  | none => Except.error "ENOENT"

/-- `MemoryStore.prototype.move`: fails when the source key is absent;
otherwise deletes the source entry and writes its buffer under the
destination key (overwriting). -/
def memMove (st : MemState) (s d : String) : Except String MemState :=
  match kvLookup st s with
  | none => Except.error "ENOENT"
  | some b => Except.ok (kvInsert (kvErase st s) d b)

/-- `MemoryStore.prototype.exists`: double-negation of the property read. -/
def memExistsKey (st : MemState) (k : String) : Bool :=
  (kvLookup st k).isSome

/-- `MemoryStore.prototype.unlink`: `delete this.data[key]`; total, returns
`undefined` (here `Unit`). -/
def memUnlink (st : MemState) (k : String) : MemState × Unit :=
  (kvErase st k, ())

/-- The `MemoryStore` backend packaged as a store-contract instance. -/
def MemStore : Store MemState Unit :=
  { ensure := memEnsure
    streamFn := memStreamFn
    move := memMove
    existsKey := memExistsKey
    unlink := memUnlink }

/-! ### The LRU tracker (lru-cache v4, as configured by CacheStore)

The source constructs `LRU({ max: cacheLimit, length: size => size,
noDisposeOnSet: true, dispose: ... })` and stores byte sizes as values, so an
entry's value and its length coincide.  Entries are kept most-recently-used
first.  `totalLen` is lru-cache's running `LENGTH` accumulator — a JS number
that becomes `NaN` (`none`) once an `undefined` size is added to it. -/

/-- The LRU tracker state: entries (MRU first) mapping key to the stored size
(`none` = `undefined`), the running total length, and the byte budget. -/
structure Lru where
  entries : KV String (Option Nat)
  totalLen : Option Int
  max : Nat
  deriving DecidableEq

/-- State of one `CacheStore` instance: the two tier states, the
PendingRename dictionary `this.moves`, and the LRU tracker `this.lru`. -/
structure CS (σc σf : Type) where
  cacheStore : σc
  fallbackStore : σf
  moves : KV String String
  lru : Lru

/-- The LRU `dispose` callback installed by the `CacheStore` constructor:
if `this.moves[key]` is truthy, remove the pending rename and skip deletion;
otherwise unlink the key from the cache tier.  The fallback tier is never
touched. -/
def dispose (Cc : Store σc ρc) (st : CS σc σf) (k : String) : CS σc σf :=
  if jsTruthyStr (kvLookup st.moves k) then
    { st with moves := kvErase st.moves k }
  else
    { st with cacheStore := (Cc.unlink st.cacheStore k).1 }

/-- lru-cache `del`: when the key is present, call `dispose`, subtract the
entry's length from the running total and drop the entry; otherwise no-op. -/
def lruDelNode (Cc : Store σc ρc) (st : CS σc σf) (k : String) : CS σc σf :=
  match kvLookup st.lru.entries k with
  | none => st
  | some len =>
    let st1 := dispose Cc st k
    { st1 with
      lru := { st1.lru with
        entries := kvErase st1.lru.entries k
        totalLen := jsSubI st1.lru.totalLen len } }

/-- lru-cache `trim`, fueled: while the running total exceeds `max`, dispose
and drop the least-recently-used (last) entry.  A `NaN` total never exceeds
`max`, so trimming stops. -/
def trimGo (Cc : Store σc ρc) : Nat → CS σc σf → CS σc σf
  | 0, st => st
  | fuel + 1, st =>
    if jsGtI st.lru.totalLen st.lru.max then
      match st.lru.entries.getLast? with
      | none => st
      | some (k, len) =>
        let st1 := dispose Cc st k
        trimGo Cc fuel
          { st1 with
            lru := { st1.lru with
              entries := st1.lru.entries.dropLast
              totalLen := jsSubI st1.lru.totalLen len } }
    else st

/-- lru-cache `trim` with enough fuel to empty the list. -/
def trim (Cc : Store σc ρc) (st : CS σc σf) : CS σc σf :=
  trimGo Cc st.lru.entries.length st

/-- lru-cache `get`: on a hit, refresh the entry to most-recently-used and
return its value; on a miss return `undefined`.  A stored `undefined` value
and a miss are indistinguishable in the returned value, as in JS. -/
def lruGet (st : CS σc σf) (k : String) : Option Nat × CS σc σf :=
  match kvLookup st.lru.entries k with
  | none => (none, st)
  | some v =>
    (v, { st with
      lru := { st.lru with entries := (k, v) :: kvErase st.lru.entries k } })

/-- lru-cache `set` with `noDisposeOnSet` and `length: size => size`:
overwrite or insert the entry, reject (and dispose) an entry longer than
`max`, update the running total with JS arithmetic, refresh recency, trim. -/
def lruSet (Cc : Store σc ρc) (st : CS σc σf) (k : String) (v : Option Nat) :
    CS σc σf :=
  match kvLookup st.lru.entries k with
  | some oldLen =>
    if jsGtN v st.lru.max then
      lruDelNode Cc st k
    else
      trim Cc
        { st with
          lru := { st.lru with
            entries := (k, v) :: kvErase st.lru.entries k
            totalLen := jsAddSubI st.lru.totalLen v oldLen } }
  | none =>
    if jsGtN v st.lru.max then
      dispose Cc st k
    else
      trim Cc
        { st with
          lru := { st.lru with
            entries := (k, v) :: st.lru.entries
            totalLen := jsAddI st.lru.totalLen v } }

/-! ### The tiered cache store operations (src/unnamed/part_002) -/

/-- `CacheStore.prototype.ensure`: count the stream's bytes, ensure on both
tiers, then register the observed size in the LRU tracker (which may evict). -/
def csEnsure (Cc : Store σc ρc) (Cf : Store σf ρf) (st : CS σc σf)
    (k : String) (b : List Nat) : CS σc σf :=
  let size := b.length
  let st1 := { st with
    fallbackStore := Cf.ensure st.fallbackStore k b
    cacheStore := Cc.ensure st.cacheStore k b }
  lruSet Cc st1 k (some size)

/-- Result of a composite `stream` call: which branch ran (`hit`), and the
bytes delivered to the destination (or the error). -/
structure StreamRes where
  hit : Bool
  dest : Except String (List Nat)
  deriving DecidableEq

/-- `CacheStore.prototype.stream`: consult the LRU tracker; on a truthy size
stream directly from the cache tier; otherwise stream from the fallback tier
through a pass-through that also feeds `cacheStore.ensure`, then call
`this.lru.get(key)` (which registers nothing for an untracked key). -/
def csStream (Cc : Store σc ρc) (Cf : Store σf ρf) (st : CS σc σf)
    (k : String) : CS σc σf × StreamRes :=
  let r := lruGet st k
  if jsTruthyNum r.1 then
    (r.2, { hit := true, dest := Cc.streamFn r.2.cacheStore k })
  else
    match Cf.streamFn r.2.fallbackStore k with
    | Except.error e => (r.2, { hit := false, dest := Except.error e })
    | Except.ok b =>
      let st2 := { r.2 with cacheStore := Cc.ensure r.2.cacheStore k b }
      ((lruGet st2 k).2, { hit := false, dest := Except.ok b })

/-- First phase of `CacheStore.prototype.move`: record the pending rename
`this.moves[source] = dest` before anything else. -/
def recordMove (st : CS σc σf) (s d : String) : CS σc σf :=
  { st with moves := kvInsert st.moves s d }

/-- Second phase of `CacheStore.prototype.move`: rename on the fallback tier
unconditionally, and on the cache tier only when `cacheStore.exists(source)`
reports the key; the joint result fails when either issued rename fails. -/
def moveTiers (Cc : Store σc ρc) (Cf : Store σf ρf) (st : CS σc σf)
    (s d : String) : CS σc σf × Except String Unit :=
  let cRes : Except String σc :=
    if Cc.existsKey st.cacheStore s then Cc.move st.cacheStore s d
    else Except.ok st.cacheStore
  let fRes := Cf.move st.fallbackStore s d
  let st1 := { st with
    cacheStore := match cRes with | Except.ok c => c | Except.error _ => st.cacheStore
    fallbackStore := match fRes with | Except.ok f => f | Except.error _ => st.fallbackStore }
  match fRes, cRes with
  | Except.ok _, Except.ok _ => (st1, Except.ok ())
  | Except.error e, _ => (st1, Except.error e)
  | _, Except.error e => (st1, Except.error e)

/-- Third phase of `CacheStore.prototype.move` (the `.tap`, run only on joint
success): transfer the tracked size from source to destination. -/
def moveFinish (Cc : Store σc ρc) (st : CS σc σf) (s d : String) : CS σc σf :=
  let r := lruGet st s
  let st1 := lruDelNode Cc r.2 s
  lruSet Cc st1 d r.1

/-- The remainder of `CacheStore.prototype.move` after the pending rename has
been recorded: tier renames, then (on success) the LRU transfer. -/
def csMoveRest (Cc : Store σc ρc) (Cf : Store σf ρf) (st : CS σc σf)
    (s d : String) : CS σc σf × Except String Unit :=
  let r := moveTiers Cc Cf st s d
  match r.2 with
  | Except.ok _ => (moveFinish Cc r.1 s d, Except.ok ())
  | Except.error e => (r.1, Except.error e)

/-- `CacheStore.prototype.move`: record the pending rename first, then run the
tier renames and the LRU transfer. -/
def csMove (Cc : Store σc ρc) (Cf : Store σf ρf) (st : CS σc σf)
    (s d : String) : CS σc σf × Except String Unit :=
  csMoveRest Cc Cf (recordMove st s d) s d

/-- `CacheStore.prototype.exists`: delegate to the fallback tier only. -/
def csExists (Cf : Store σf ρf) (st : CS σc σf) (k : String) : Bool :=
  Cf.existsKey st.fallbackStore k

/-- `CacheStore.prototype.unlink`: unlink on both tiers; the composite result
is the fallback tier's unlink result (`spread(ret => ret)` takes the first of
the joined pair).  The LRU tracker is not touched. -/
def csUnlink (Cc : Store σc ρc) (Cf : Store σf ρf) (st : CS σc σf)
    (k : String) : CS σc σf × ρf :=
  let f := Cf.unlink st.fallbackStore k
  let c := Cc.unlink st.cacheStore k
  ({ st with fallbackStore := f.1, cacheStore := c.1 }, f.2)

/-- A fresh `CacheStore` with byte budget `limit` over the given tier states
(`this.moves = {}`, empty LRU). -/
def initCS (limit : Nat) (c : σc) (f : σf) : CS σc σf :=
  { cacheStore := c
    fallbackStore := f
    moves := []
    lru := { entries := [], totalLen := some 0, max := limit } }

/-- The number of bytes accounted by the entries tracked in the LRU tracker
(an entry with `undefined` size contributes nothing). -/
def trackedBytes (l : Lru) : Nat :=
  (l.entries.map (fun p => p.2.getD 0)).sum

/-- A concrete CacheStore state over two in-memory tiers, both holding one
byte under key a, with key a tracked at size 1 under budget 100 (used to
witness the rename theorem at a concrete input). -/
def exC5 : CS MemState MemState :=
  { cacheStore := [("a", [9])]
    fallbackStore := [("a", [9])]
    moves := []
    lru := { entries := [("a", some 1)], totalLen := some 1, max := 100 } }

/-- A concrete CacheStore state over two in-memory tiers with key a stored in
both tiers and tracked at size 1 under budget 100 (used to witness the
unlink-frame theorem at a concrete input). -/
def exC9 : CS MemState MemState :=
  { cacheStore := [("a", [1])]
    fallbackStore := [("a", [1])]
    moves := []
    lru := { entries := [("a", some 1)], totalLen := some 1, max := 100 } }

/-! ### Capability forwarding (the constructor's proxy loops)

The constructor iterates the cache tier's function-valued properties and, for
every name not already defined on the composite, synthesizes a method that
calls the cache tier's sibling and then — via `thenSync` — the fallback
tier's sibling when it exists, returning the latter's result; a second loop
does the mirror image for names found only on the fallback tier.  A tier's
capability surface is modelled as an option-valued map from names to
functions from an argument list to a result. -/

/-- Which tier a proxied invocation reached. -/
inductive TierTag where
  | cache
  | fallback
  deriving DecidableEq

/-- The synthesized forwarding method for `name`, applied to `args`: returns
`none` when the composite defines the method itself (no proxy is created) or
when neither tier has it (the JS call would be a TypeError); otherwise the
call's result together with the ordered log of tier invocations and the
arguments each received. -/
def proxyInvoke (cacheCaps fallbackCaps : String → Option (List α → β))
    (ownMethod : String → Bool) (name : String) (args : List α) :
    Option (β × List (TierTag × List α)) :=
  if ownMethod name then none
  else
    match cacheCaps name with
    | some f =>
      match fallbackCaps name with
      | some g =>
        some (g args, [(TierTag.cache, args), (TierTag.fallback, args)])
      | none => some (f args, [(TierTag.cache, args)])
    | none =>
      match fallbackCaps name with
      | some g => some (g args, [(TierTag.fallback, args)])
      | none => none

/-! ### The content-addressed facade (claim C8)

Modelled from the spec: the facade itself (`lib/cafs.js` / `index.js`) is not
among the provided sources — only its README, callers and tests are — so the
two-phase put protocol is modelled from spec §4.1/§8 and the README: `put` =
`preparePut` (derive a temporary key from a fresh identifier, write the bytes
under it, hash the full byte sequence) followed by `finalizePut` (derive the
final key from the hash via the key-derivation function and rename the
temporary entry onto it, overwriting).  The default key derivation returns
the hash itself once the hash is known and a fresh unique name before. -/

/-- Modelled from the spec: a blob key as produced by the default key
derivation — a fresh temporary name before the hash is known, the content
hash afterwards. -/
inductive FKey where
  | tmp (n : Nat)
  | final (h : List Nat)
  deriving DecidableEq

/-- Modelled from the spec: the BlobInfo record returned by `put`. -/
structure BlobInfo where
  key : FKey
  hash : List Nat
  size : Nat
  deriving DecidableEq

/-- Modelled from the spec: `put(b)` over a key-to-buffer store — write the
bytes under a temporary key derived from the fresh identifier `ctr`, hash
them with the configured digest `H`, then rename the temporary entry onto the
hash-derived final key (overwriting any existing entry, which is how
duplicate content collapses). -/
def facadePut (H : List Nat → List Nat) (st : KV FKey (List Nat))
    (ctr : Nat) (b : List Nat) : KV FKey (List Nat) × BlobInfo :=
  let tk := FKey.tmp ctr
  let st1 := kvInsert st tk b
  let fk := FKey.final (H b)
  (kvInsert (kvErase st1 tk) fk b, { key := fk, hash := H b, size := b.length })

/-- Modelled from the spec: `readFile(info)` — read back the bytes stored
under the BlobInfo's key. -/
def facadeRead (st : KV FKey (List Nat)) (info : BlobInfo) : Option (List Nat) :=
  kvLookup st info.key

/-! ### Dictionary lemmas -/

@[simp] theorem kvLookup_nil [DecidableEq κ] (q : κ) :
    kvLookup ([] : KV κ α) q = none := rfl

@[simp] theorem kvLookup_cons [DecidableEq κ] (k : κ) (v : α) (m : KV κ α) (q : κ) :
    kvLookup ((k, v) :: m) q = if k = q then some v else kvLookup m q := rfl

theorem kvLookup_erase [DecidableEq κ] (m : KV κ α) (k q : κ) :
    kvLookup (kvErase m k) q = if k = q then none else kvLookup m q := by
  induction m with
  | nil => simp [kvErase]
  | cons p m ih =>
    obtain ⟨k', v⟩ := p
    by_cases hk : k' = k
    · subst hk
      by_cases hq : k' = q
      · subst hq; simp [kvErase, ih]
      · simp [kvErase, hq, ih]
    · by_cases hq : k' = q
      · subst hq
        have hne : ¬ k = k' := fun h => hk h.symm
        simp [kvErase, hk, hne]
      · simp [kvErase, hk, hq, ih]

@[simp] theorem kvLookup_insert_self [DecidableEq κ] (m : KV κ α) (k : κ) (v : α) :
    kvLookup (kvInsert m k v) k = some v := by
  simp [kvInsert]

theorem kvLookup_insert_ne [DecidableEq κ] (m : KV κ α) (k q : κ) (v : α) (h : k ≠ q) :
    kvLookup (kvInsert m k v) q = kvLookup m q := by
  simp [kvInsert, kvLookup_erase, h]

theorem kvErase_absent [DecidableEq κ] (m : KV κ α) (k : κ)
    (h : kvLookup m k = none) : kvErase m k = m := by
  induction m with
  | nil => rfl
  | cons p m ih =>
    obtain ⟨k', v⟩ := p
    by_cases hk : k' = k
    · subst hk; simp at h
    · simp [hk] at h
      simp [kvErase, hk, ih h]

theorem kvErase_erase_self [DecidableEq κ] (m : KV κ α) (k : κ) :
    kvErase (kvErase m k) k = kvErase m k := by
  apply kvErase_absent
  simp [kvLookup_erase]

/-- Trimming is a no-op when the running total does not exceed the budget. -/
theorem trim_noop (Cc : Store σc ρc) (st : CS σc σf)
    (h : jsGtI st.lru.totalLen st.lru.max = false) : trim Cc st = st := by
  unfold trim
  cases hl : st.lru.entries.length with
  | zero => rfl
  | succ n => simp [trimGo, h]

/-! ### Claim theorems -/

/-- Claim C1 (code bug): the budget invariant — sum of tracked entry sizes at
most the byte budget after every completed mutating operation — is violated
by a concrete completed trace on a CacheStore with budget 100 over two
in-memory tiers: ensure a 150-byte blob under key t (rejected from the
tracker as oversized and disposed), move t to f (the move completes, and
registers f with the `undefined` size `this.lru.get(source)` returned for the
untracked source, turning the tracker's running length into NaN, which
disables trimming for good), then ensure two 60-byte blobs; afterwards the
tracker holds 120 > 100 tracked bytes. -/
theorem c1_budget_violation :
    (csMove MemStore MemStore
        (csEnsure MemStore MemStore (initCS 100 ([] : MemState) ([] : MemState))
          "t" (List.replicate 150 0)) "t" "f").2 = Except.ok () ∧
    trackedBytes
      (csEnsure MemStore MemStore
        (csEnsure MemStore MemStore
          (csMove MemStore MemStore
            (csEnsure MemStore MemStore (initCS 100 ([] : MemState) ([] : MemState))
              "t" (List.replicate 150 0)) "t" "f").1
          "a" (List.replicate 60 0))
        "b" (List.replicate 60 0)).lru = 120 ∧
    ¬ trackedBytes
      (csEnsure MemStore MemStore
        (csEnsure MemStore MemStore
          (csMove MemStore MemStore
            (csEnsure MemStore MemStore (initCS 100 ([] : MemState) ([] : MemState))
              "t" (List.replicate 150 0)) "t" "f").1
          "a" (List.replicate 60 0))
        "b" (List.replicate 60 0)).lru ≤ 100 := by
  set_option maxRecDepth 10000 in refine ⟨rfl, rfl, by decide⟩

/-- Claim C2 (code bug): on a cache miss, `CacheStore.stream` does deliver
the fallback tier's bytes to the destination while writing them into the
cache tier, but it never registers the key in the LRU tracker — the code
calls `this.lru.get(key)` (a no-op for an untracked key) where a
registration would be needed — so a subsequent `stream` of the same key takes
the miss path again instead of the claimed cache-hit path.  Concrete run:
budget 100, fallback holds 40 bytes under key a, cache and tracker empty. -/
theorem c2_readthrough_not_registered :
    (csStream MemStore MemStore
      (initCS 100 ([] : MemState) [("a", List.replicate 40 1)]) "a").2.hit = false ∧
    (csStream MemStore MemStore
      (initCS 100 ([] : MemState) [("a", List.replicate 40 1)]) "a").2.dest =
        Except.ok (List.replicate 40 1) ∧
    kvLookup (csStream MemStore MemStore
      (initCS 100 ([] : MemState) [("a", List.replicate 40 1)]) "a").1.cacheStore "a" =
        some (List.replicate 40 1) ∧
    kvLookup (csStream MemStore MemStore
      (initCS 100 ([] : MemState) [("a", List.replicate 40 1)]) "a").1.lru.entries "a" =
        none ∧
    (csStream MemStore MemStore
      (csStream MemStore MemStore
        (initCS 100 ([] : MemState) [("a", List.replicate 40 1)]) "a").1 "a").2.hit =
        false := by
  refine ⟨rfl, rfl, rfl, rfl, rfl⟩

/-- Claim C3 (counterexample): for a capability m defined as a function on
both tiers, the composite call's result is not the cache tier's result — at
tiers whose m returns the marker strings cache and fallback respectively, the
synthesized method returns the fallback tier's marker (exactly what the
repository's own proxy tests expect). -/
theorem c3_counterexample :
    (proxyInvoke
        (fun n => if n = "m" then some (fun _ : List Nat => "cache") else none)
        (fun n => if n = "m" then some (fun _ : List Nat => "fallback") else none)
        (fun _ => false) "m" []).map Prod.fst = some "fallback" ∧
    (proxyInvoke
        (fun n => if n = "m" then some (fun _ : List Nat => "cache") else none)
        (fun n => if n = "m" then some (fun _ : List Nat => "fallback") else none)
        (fun _ => false) "m" []).map Prod.fst ≠ some "cache" := by
  refine ⟨rfl, by decide⟩

/-- Claim C3 (amended): for every capability name m defined as a function on
both the cache tier and the fallback tier (and not already defined by
CacheStore itself), invoking m on the composite invokes the cache tier's m
first and then the fallback tier's m, passing the arguments unchanged to
both, and the composite call's result is the fallback tier's result. -/
theorem c3_amended (cacheCaps fallbackCaps : String → Option (List α → β))
    (ownMethod : String → Bool) (name : String) (args : List α)
    (f g : List α → β)
    (hown : ownMethod name = false)
    (hc : cacheCaps name = some f) (hf : fallbackCaps name = some g) :
    proxyInvoke cacheCaps fallbackCaps ownMethod name args =
      some (g args, [(TierTag.cache, args), (TierTag.fallback, args)]) := by
  simp [proxyInvoke, hown, hc, hf]

/-- Claim C3 (witness): the amended forwarding behaviour at a concrete pair
of tiers and argument list. -/
theorem c3_amended_witness :
    proxyInvoke
      (fun _ => some (fun _ : List Nat => "cache"))
      (fun _ => some (fun _ : List Nat => "fallback"))
      (fun _ => false) "m" [3] =
      some ("fallback", [(TierTag.cache, [3]), (TierTag.fallback, [3])]) :=
  c3_amended _ _ _ "m" [3] _ _ rfl rfl rfl

/-- Claim C4 (counterexample): a key can be present in the PendingRename set
with an empty-string destination; the eviction callback's truthiness test
`if (this.moves[key])` then takes the deletion branch, so the eviction does
issue an unlink against the cache tier and does not remove the key from the
set — contradicting the claim for present keys. -/
theorem c4_counterexample :
    kvLookup
      ({ cacheStore := ([("k", [7])] : MemState), fallbackStore := ([] : MemState),
         moves := [("k", "")],
         lru := { entries := [], totalLen := some 0, max := 100 } } : CS MemState MemState).moves
      "k" = some "" ∧
    (dispose MemStore
      { cacheStore := ([("k", [7])] : MemState), fallbackStore := ([] : MemState),
        moves := [("k", "")],
        lru := { entries := [], totalLen := some 0, max := 100 } } "k").cacheStore = [] ∧
    (dispose MemStore
      { cacheStore := ([("k", [7])] : MemState), fallbackStore := ([] : MemState),
        moves := [("k", "")],
        lru := { entries := [], totalLen := some 0, max := 100 } } "k").moves =
      [("k", "")] := by
  refine ⟨rfl, rfl, rfl⟩

/-- Claim C4 (amended): for every key evicted by the LRU tracker (the
`dispose` callback): if the key is recorded in the PendingRename set with a
non-empty destination, the eviction removes it from that set and issues no
deletion; if the key's PendingRename lookup is falsy (absent, or recorded
with the empty-string destination), it issues an unlink against the cache
tier only and leaves the set untouched; in neither case is the fallback tier
or the tracker itself modified. -/
theorem c4_amended (Cc : Store σc ρc) (st : CS σc σf) (k : String) :
    (∀ d, kvLookup st.moves k = some d → d ≠ "" →
      dispose Cc st k = { st with moves := kvErase st.moves k }) ∧
    (jsTruthyStr (kvLookup st.moves k) = false →
      dispose Cc st k = { st with cacheStore := (Cc.unlink st.cacheStore k).1 }) ∧
    (dispose Cc st k).fallbackStore = st.fallbackStore ∧
    (dispose Cc st k).lru = st.lru := by
  refine ⟨?_, ?_, ?_, ?_⟩
  · intro d hd hne
    simp [dispose, hd, jsTruthyStr, hne]
  · intro h
    simp [dispose, h]
  · unfold dispose; split <;> rfl
  · unfold dispose; split <;> rfl

/-- Claim C4 (witness): the amended eviction behaviour at concrete states —
one with a pending rename for the evicted key, one without. -/
theorem c4_amended_witness :
    dispose MemStore
      ({ cacheStore := ([("x", [1])] : MemState), fallbackStore := ([] : MemState),
         moves := [("x", "y")],
         lru := { entries := [], totalLen := some 0, max := 10 } } : CS MemState MemState)
      "x" =
      { cacheStore := ([("x", [1])] : MemState), fallbackStore := ([] : MemState),
        moves := [],
        lru := { entries := [], totalLen := some 0, max := 10 } } ∧
    dispose MemStore
      ({ cacheStore := ([("x", [1])] : MemState), fallbackStore := ([] : MemState),
         moves := [],
         lru := { entries := [], totalLen := some 0, max := 10 } } : CS MemState MemState)
      "x" =
      { cacheStore := ([] : MemState), fallbackStore := ([] : MemState),
        moves := [],
        lru := { entries := [], totalLen := some 0, max := 10 } } :=
  ⟨(c4_amended MemStore _ "x").1 "y" rfl (by decide),
   (c4_amended MemStore _ "x").2.1 rfl⟩

/-- Claim C6: `CacheStore.unlink` issues delete-key against both the fallback
tier and the cache tier and resolves with the fallback tier's unlink result,
and `CacheStore.exists` queries only the fallback tier (its answer does not
depend on the cache tier's state, which it never consults). -/
theorem c6_unlink_exists_delegation (Cc : Store σc ρc) (Cf : Store σf ρf)
    (st : CS σc σf) (k : String) :
    (csUnlink Cc Cf st k).2 = (Cf.unlink st.fallbackStore k).2 ∧
    (csUnlink Cc Cf st k).1.fallbackStore = (Cf.unlink st.fallbackStore k).1 ∧
    (csUnlink Cc Cf st k).1.cacheStore = (Cc.unlink st.cacheStore k).1 ∧
    csExists Cf st k = Cf.existsKey st.fallbackStore k ∧
    (∀ c2 : σc, csExists Cf { st with cacheStore := c2 } k = csExists Cf st k) :=
  ⟨rfl, rfl, rfl, rfl, fun _ => rfl⟩

/-- Claim C7 (counterexample): `MemoryStore.move` with equal source and
destination keys succeeds on a present key, but afterwards the source key is
not absent — it still holds the original bytes. -/
theorem c7_counterexample :
    memMove [("a", [1, 2])] "a" "a" = Except.ok [("a", [1, 2])] ∧
    kvLookup ([("a", [1, 2])] : MemState) "a" = some [1, 2] :=
  ⟨rfl, rfl⟩

/-- Claim C7 (amended): `MemoryStore.move(source, dest)` rejects when the
source key is absent; when the source key holds bytes b it succeeds, after
which dest holds exactly b (overwriting any previous dest entry), the source
key is absent whenever source and dest differ, and every other key is
unchanged. -/
theorem c7_amended (st : MemState) (s d : String) :
    (kvLookup st s = none → memMove st s d = Except.error "ENOENT") ∧
    (∀ b, kvLookup st s = some b →
      memMove st s d = Except.ok (kvInsert (kvErase st s) d b) ∧
      kvLookup (kvInsert (kvErase st s) d b) d = some b ∧
      (s ≠ d → kvLookup (kvInsert (kvErase st s) d b) s = none) ∧
      (∀ q, q ≠ s → q ≠ d → kvLookup (kvInsert (kvErase st s) d b) q = kvLookup st q)) := by
  refine ⟨fun h => by simp [memMove, h], fun b hb => ⟨by simp [memMove, hb], ?_, ?_, ?_⟩⟩
  · simp
  · intro hsd
    rw [kvLookup_insert_ne _ _ _ _ (fun h => hsd h.symm)]
    simp [kvLookup_erase]
  · intro q hqs hqd
    rw [kvLookup_insert_ne _ _ _ _ (fun h => hqd h.symm), kvLookup_erase,
      if_neg (fun h : s = q => hqs h.symm)]

/-- Claim C7 (witness): the amended rename behaviour at a concrete store —
a failing move of an absent key, and a successful move that relocates the
bytes, overwrites the destination and keeps an unrelated key intact. -/
theorem c7_amended_witness :
    memMove ([("a", [1, 2]), ("d", [9]), ("q", [5])] : MemState) "zz" "d" =
      Except.error "ENOENT" ∧
    memMove ([("a", [1, 2]), ("d", [9]), ("q", [5])] : MemState) "a" "d" =
      Except.ok (kvInsert (kvErase [("a", [1, 2]), ("d", [9]), ("q", [5])] "a") "d" [1, 2]) ∧
    kvLookup (kvInsert (kvErase ([("a", [1, 2]), ("d", [9]), ("q", [5])] : MemState) "a") "d" [1, 2]) "d" = some [1, 2] ∧
    kvLookup (kvInsert (kvErase ([("a", [1, 2]), ("d", [9]), ("q", [5])] : MemState) "a") "d" [1, 2]) "a" = none ∧
    kvLookup (kvInsert (kvErase ([("a", [1, 2]), ("d", [9]), ("q", [5])] : MemState) "a") "d" [1, 2]) "q" = some [5] := by
  refine ⟨(c7_amended _ "zz" "d").1 rfl, ?_⟩
  obtain ⟨h1, h2, h3, h4⟩ := (c7_amended [("a", [1, 2]), ("d", [9]), ("q", [5])] "a" "d").2 [1, 2] rfl
  exact ⟨h1, h2, h3 (by decide), by
    have := h4 "q" (by decide) (by decide)
    simpa using this⟩

/-- Claim C8 (spec-modelled): putting the same byte sequence twice through
the two-phase put protocol yields BlobInfo values with equal hash and equal
key, and reading either back from the resulting store yields exactly the
original bytes. -/
theorem c8_content_addressing (H : List Nat → List Nat) (st : KV FKey (List Nat))
    (ctr1 ctr2 : Nat) (b : List Nat) :
    (facadePut H st ctr1 b).2.hash = (facadePut H (facadePut H st ctr1 b).1 ctr2 b).2.hash ∧
    (facadePut H st ctr1 b).2.key = (facadePut H (facadePut H st ctr1 b).1 ctr2 b).2.key ∧
    facadeRead (facadePut H (facadePut H st ctr1 b).1 ctr2 b).1 (facadePut H st ctr1 b).2 =
      some b ∧
    facadeRead (facadePut H (facadePut H st ctr1 b).1 ctr2 b).1
      (facadePut H (facadePut H st ctr1 b).1 ctr2 b).2 = some b := by
  refine ⟨rfl, rfl, ?_, ?_⟩ <;> simp [facadePut, facadeRead]

/-- Claim C10: `MemoryStore.unlink` of any key (present or absent) never
fails — it is a total state transformer, and on an absent key it returns the
store unchanged — and it leaves the stored buffer of every other key
untouched. -/
theorem c10_unlink_frame (st : MemState) (k q : String) (h : q ≠ k) :
    kvLookup (memUnlink st k).1 q = kvLookup st q ∧
    (kvLookup st k = none → (memUnlink st k).1 = st) := by
  constructor
  · show kvLookup (kvErase st k) q = kvLookup st q
    rw [kvLookup_erase, if_neg (fun hh : k = q => h hh.symm)]
  · intro habs
    simp [memUnlink, kvErase_absent st k habs]

/-- Claim C10 (witness): unlinking an absent key from a concrete store keeps
the other key's buffer and the whole store unchanged. -/
theorem c10_unlink_frame_witness :
    kvLookup (memUnlink [("a", [1])] "zz").1 "a" = some [1] ∧
    (memUnlink ([("a", [1])] : MemState) "zz").1 = [("a", [1])] := by
  obtain ⟨h1, h2⟩ := c10_unlink_frame [("a", [1])] "zz" "a" (by decide)
  exact ⟨by simpa using h1, h2 rfl⟩

/-- Claim C9 (counterexample): a key tracked with size 0 (an empty blob put
through `ensure`) stays tracked with the same size across `unlink`, but a
subsequent `stream` of it does not take the cache-hit branch — the truthiness
test `if (size)` treats the tracked size 0 like a miss, so the read falls
through to the fallback tier. -/
theorem c9_counterexample :
    kvLookup (csEnsure MemStore MemStore
      (initCS 100 ([] : MemState) ([] : MemState)) "a" []).lru.entries "a" =
      some (some 0) ∧
    kvLookup (csUnlink MemStore MemStore
      (csEnsure MemStore MemStore
        (initCS 100 ([] : MemState) ([] : MemState)) "a" []) "a").1.lru.entries "a" =
      some (some 0) ∧
    (csStream MemStore MemStore
      (csUnlink MemStore MemStore
        (csEnsure MemStore MemStore
          (initCS 100 ([] : MemState) ([] : MemState)) "a" []) "a").1 "a").2.hit =
      false :=
  ⟨rfl, rfl, rfl⟩

/-- Claim C9 (amended): `CacheStore.unlink(k)` leaves the LRU tracker
entirely unchanged, so a key tracked with a nonzero size before the unlink is
still tracked with the same size afterwards, and a subsequent
`CacheStore.stream(k, dest)` takes the cache-hit branch: it delegates the
read to the cache tier's stream capability and touches neither tier's state,
rather than falling through to the fallback tier. -/
theorem c9_amended (Cc : Store σc ρc) (Cf : Store σf ρf) (st : CS σc σf)
    (k : String) (sz : Nat)
    (htr : kvLookup st.lru.entries k = some (some sz)) (hsz : sz ≠ 0) :
    (csUnlink Cc Cf st k).1.lru = st.lru ∧
    kvLookup (csUnlink Cc Cf st k).1.lru.entries k = some (some sz) ∧
    (csStream Cc Cf (csUnlink Cc Cf st k).1 k).2.hit = true ∧
    (csStream Cc Cf (csUnlink Cc Cf st k).1 k).2.dest =
      Cc.streamFn (csUnlink Cc Cf st k).1.cacheStore k ∧
    (csStream Cc Cf (csUnlink Cc Cf st k).1 k).1.cacheStore =
      (csUnlink Cc Cf st k).1.cacheStore ∧
    (csStream Cc Cf (csUnlink Cc Cf st k).1 k).1.fallbackStore =
      (csUnlink Cc Cf st k).1.fallbackStore := by
  refine ⟨rfl, htr, ?_, ?_, ?_, ?_⟩ <;>
    simp [csStream, csUnlink, lruGet, htr, jsTruthyNum, hsz]

/-- Claim C9 (witness): the amended unlink-frame behaviour at a concrete
state with key a tracked at size 1. -/
theorem c9_amended_witness :
    (csUnlink MemStore MemStore exC9 "a").1.lru = exC9.lru ∧
    kvLookup (csUnlink MemStore MemStore exC9 "a").1.lru.entries "a" = some (some 1) ∧
    (csStream MemStore MemStore (csUnlink MemStore MemStore exC9 "a").1 "a").2.hit = true ∧
    (csStream MemStore MemStore (csUnlink MemStore MemStore exC9 "a").1 "a").2.dest =
      MemStore.streamFn (csUnlink MemStore MemStore exC9 "a").1.cacheStore "a" ∧
    (csStream MemStore MemStore (csUnlink MemStore MemStore exC9 "a").1 "a").1.cacheStore =
      (csUnlink MemStore MemStore exC9 "a").1.cacheStore ∧
    (csStream MemStore MemStore (csUnlink MemStore MemStore exC9 "a").1 "a").1.fallbackStore =
      (csUnlink MemStore MemStore exC9 "a").1.fallbackStore :=
  c9_amended MemStore MemStore exC9 "a" 1 rfl (by decide)

/-- Claim C5 (counterexample): a rename whose source and destination keys
coincide completes, yet afterwards the source key has not been removed from
the LRU tracker — it is still tracked (the transfer re-registers it), so the
claimed after-state (source removed) fails for such renames. -/
theorem c5_counterexample :
    (csMove MemStore MemStore exC5 "a" "a").2 = Except.ok () ∧
    kvLookup (csMove MemStore MemStore exC5 "a" "a").1.lru.entries "a" =
      some (some 1) :=
  ⟨rfl, rfl⟩

/-- Claim C5 (amended): for every rename `CacheStore.move(s, d)` with
distinct keys and a non-empty destination, where s is tracked at a size no
larger than the budget, the tracker's running total is either NaN or no
larger than the budget (the two shapes every completed operation leaves
behind), and the issued tier renames succeed: the pair s-to-d is recorded in
the PendingRename set before the renames are issued (the move is exactly the
rename phases applied to the recording step); the rename is issued on the
fallback tier unconditionally; on the cache tier a rename is issued only if
the cache tier reports s as existing; and after both complete, the tracked
size of s is transferred to d — s is no longer tracked and d (whether
previously tracked or not) is tracked at the same size. -/
theorem c5_amended (Cc : Store σc ρc) (Cf : Store σf ρf) (st : CS σc σf)
    (s d : String) (sz : Nat) (c2 : σc) (f2 : σf)
    (hsd : s ≠ d) (hde : d ≠ "")
    (htr : kvLookup st.lru.entries s = some (some sz))
    (hsz : sz ≤ st.lru.max)
    (hq : st.lru.totalLen = none ∨
      ∃ t : Int, st.lru.totalLen = some t ∧ t ≤ (st.lru.max : Int))
    (hf : Cf.move st.fallbackStore s d = Except.ok f2)
    (hc : (if Cc.existsKey st.cacheStore s then Cc.move st.cacheStore s d
           else Except.ok st.cacheStore) = Except.ok c2) :
    kvLookup (recordMove st s d).moves s = some d ∧
    csMove Cc Cf st s d = csMoveRest Cc Cf (recordMove st s d) s d ∧
    (csMove Cc Cf st s d).2 = Except.ok () ∧
    (csMove Cc Cf st s d).1.fallbackStore = f2 ∧
    (csMove Cc Cf st s d).1.cacheStore = c2 ∧
    kvLookup (csMove Cc Cf st s d).1.lru.entries s = none ∧
    kvLookup (csMove Cc Cf st s d).1.lru.entries d = some (some sz) := by
  have hszlt : ¬ st.lru.max < sz := Nat.not_lt.mpr hsz
  have hds : ¬ d = s := fun h => hsd h.symm
  have hmid : csMove Cc Cf st s d =
      (lruSet Cc
        { cacheStore := c2
          fallbackStore := f2
          moves := kvErase (kvInsert st.moves s d) s
          lru := { entries := kvErase st.lru.entries s
                   totalLen := jsSubI st.lru.totalLen (some sz)
                   max := st.lru.max } } d (some sz), Except.ok ()) := by
    simp only [csMove, csMoveRest, moveTiers, recordMove, moveFinish, hf, hc,
      lruGet, lruDelNode, dispose, htr]
    simp [kvLookup_erase, jsTruthyStr, hde, kvErase, kvErase_erase_self]
  cases hdd : kvLookup st.lru.entries d with
  | none =>
    have hrun : csMove Cc Cf st s d =
        (trim Cc
          { cacheStore := c2
            fallbackStore := f2
            moves := kvErase (kvInsert st.moves s d) s
            lru := { entries := (d, some sz) :: kvErase st.lru.entries s
                     totalLen := jsAddI (jsSubI st.lru.totalLen (some sz)) (some sz)
                     max := st.lru.max } }, Except.ok ()) := by
      rw [hmid]
      simp [lruSet, kvLookup_erase, hsd, hdd, jsGtN, hszlt]
    have htrim : trim Cc
        ({ cacheStore := c2
           fallbackStore := f2
           moves := kvErase (kvInsert st.moves s d) s
           lru := { entries := (d, some sz) :: kvErase st.lru.entries s
                    totalLen := jsAddI (jsSubI st.lru.totalLen (some sz)) (some sz)
                    max := st.lru.max } } : CS σc σf) =
        { cacheStore := c2
          fallbackStore := f2
          moves := kvErase (kvInsert st.moves s d) s
          lru := { entries := (d, some sz) :: kvErase st.lru.entries s
                   totalLen := jsAddI (jsSubI st.lru.totalLen (some sz)) (some sz)
                   max := st.lru.max } } := by
      apply trim_noop
      rcases hq with hnan | ⟨t, htl, hts⟩
      · simp [hnan, jsSubI, jsAddI, jsGtI]
      · simp [htl, jsSubI, jsAddI, jsGtI, sub_add_cancel, not_lt.mpr hts]
    refine ⟨kvLookup_insert_self _ _ _, rfl, ?_, ?_, ?_, ?_, ?_⟩ <;>
      rw [hrun, htrim] <;> simp [kvLookup_erase, hds]
  | some old =>
    have hrun : csMove Cc Cf st s d =
        (trim Cc
          { cacheStore := c2
            fallbackStore := f2
            moves := kvErase (kvInsert st.moves s d) s
            lru := { entries :=
                       (d, some sz) :: kvErase (kvErase st.lru.entries s) d
                     totalLen :=
                       jsAddSubI (jsSubI st.lru.totalLen (some sz)) (some sz) old
                     max := st.lru.max } }, Except.ok ()) := by
      rw [hmid]
      simp [lruSet, kvLookup_erase, hsd, hdd, jsGtN, hszlt]
    have htrim : trim Cc
        ({ cacheStore := c2
           fallbackStore := f2
           moves := kvErase (kvInsert st.moves s d) s
           lru := { entries :=
                      (d, some sz) :: kvErase (kvErase st.lru.entries s) d
                    totalLen :=
                      jsAddSubI (jsSubI st.lru.totalLen (some sz)) (some sz) old
                    max := st.lru.max } } : CS σc σf) =
        { cacheStore := c2
          fallbackStore := f2
          moves := kvErase (kvInsert st.moves s d) s
          lru := { entries :=
                     (d, some sz) :: kvErase (kvErase st.lru.entries s) d
                   totalLen :=
                     jsAddSubI (jsSubI st.lru.totalLen (some sz)) (some sz) old
                   max := st.lru.max } } := by
      apply trim_noop
      cases old with
      | none =>
        rcases hq with hnan | ⟨t, htl, hts⟩
        · simp [hnan, jsSubI, jsAddSubI, jsGtI]
        · simp [htl, jsSubI, jsAddSubI, jsGtI]
      | some o =>
        rcases hq with hnan | ⟨t, htl, hts⟩
        · simp [hnan, jsSubI, jsAddSubI, jsGtI]
        · simp only [htl, jsSubI, jsAddSubI, jsGtI, sub_add_cancel]
          simp only [not_lt, decide_eq_false_iff_not, not_lt, tsub_le_iff_right]
          exact le_trans hts (le_add_of_nonneg_right (Int.natCast_nonneg o))
    refine ⟨kvLookup_insert_self _ _ _, rfl, ?_, ?_, ?_, ?_, ?_⟩ <;>
      rw [hrun, htrim] <;> simp [kvLookup_erase, hds]

/-- Claim C5 (witness): the amended rename behaviour at a concrete state,
renaming the tracked key a to b. -/
theorem c5_amended_witness :
    kvLookup (recordMove exC5 "a" "b").moves "a" = some "b" ∧
    csMove MemStore MemStore exC5 "a" "b" =
      csMoveRest MemStore MemStore (recordMove exC5 "a" "b") "a" "b" ∧
    (csMove MemStore MemStore exC5 "a" "b").2 = Except.ok () ∧
    (csMove MemStore MemStore exC5 "a" "b").1.fallbackStore = [("b", [9])] ∧
    (csMove MemStore MemStore exC5 "a" "b").1.cacheStore = [("b", [9])] ∧
    kvLookup (csMove MemStore MemStore exC5 "a" "b").1.lru.entries "a" = none ∧
    kvLookup (csMove MemStore MemStore exC5 "a" "b").1.lru.entries "b" =
      some (some 1) :=
  c5_amended MemStore MemStore exC5 "a" "b" 1 [("b", [9])] [("b", [9])]
    (by decide) (by decide) rfl (by decide)
    (Or.inr ⟨1, rfl, by decide⟩) rfl rfl

end Cafs
